import Mathlib

/-!
Verification development for the rdf2go RDF library (term model, graph store,
format dispatch and serializers). Go code is shallowly embedded: pure Go
functions become Lean functions, the identity-keyed triple store
(`map[*Triple]bool`) is modelled as a finite map keyed by an allocation
counter, Go byte strings are modelled as `List Nat` where byte-level slicing
matters, and Go runtime panics are modelled as `none` / a `panic` outcome
constructor of an explicit result type.
-/

namespace Rdf2Go

/-- Embeds the `Term` interface of term.go with its three concrete variants:
`Resource` (an IRI string), `Literal` (lexical value, language tag, optional
datatype term) and `BlankNode` (an identifier string). The Go `Datatype Term`
field is nil-able, hence `Option Term`. -/
inductive Term where
  | resource (uri : String)
  | literal (value : String) (language : String) (datatype : Option Term)
  | blank (id : String)

/-- Embeds the three `Equal` methods of term.go (Resource.Equal,
Literal.Equal, BlankNode.Equal): same-variant comparison of the underlying
strings, with the literal case comparing lexical value, language tag and then
the datatype (nil/nil equal, nil/non-nil unequal, both non-nil compared by
recursive term equality); any cross-variant comparison is false. -/
def Term.Equal : Term → Term → Bool
  | .resource u1, .resource u2 => u1 == u2
  | .literal v1 l1 d1, .literal v2 l2 d2 =>
    if v1 ≠ v2 then false
    else if l1 ≠ l2 then false
    else
      match d1, d2 with
      | none, some _ => false
      | some _, none => false
      | some a, some b => Term.Equal a b
      | none, none => true
  | .blank i1, .blank i2 => i1 == i2
  | _, _ => false

/-- Soundness of `Term.Equal` for structural equality (used to derive
decidable equality of the embedded terms). -/
def Term.eq_of_Equal : (a b : Term) → Term.Equal a b = true → a = b
  | .resource u1, .resource u2, h => by
      have hu : u1 = u2 := by simpa [Term.Equal] using h
      rw [hu]
  | .resource _, .literal _ _ _, h => by simp [Term.Equal] at h
  | .resource _, .blank _, h => by simp [Term.Equal] at h
  | .literal _ _ _, .resource _, h => by simp [Term.Equal] at h
  | .literal _ _ _, .blank _, h => by simp [Term.Equal] at h
  | .blank _, .resource _, h => by simp [Term.Equal] at h
  | .blank _, .literal _ _ _, h => by simp [Term.Equal] at h
  | .blank i1, .blank i2, h => by
      have hi : i1 = i2 := by simpa [Term.Equal] using h
      rw [hi]
  | .literal v1 l1 none, .literal v2 l2 none, h => by
      by_cases hv : v1 = v2
      · by_cases hl : l1 = l2
        · rw [hv, hl]
        · simp [Term.Equal, hv, hl] at h
      · simp [Term.Equal, hv] at h
  | .literal v1 l1 none, .literal v2 l2 (some _), h => by
      simp [Term.Equal] at h
  | .literal v1 l1 (some _), .literal v2 l2 none, h => by
      simp [Term.Equal] at h
  | .literal v1 l1 (some a), .literal v2 l2 (some b), h => by
      by_cases hv : v1 = v2
      · by_cases hl : l1 = l2
        · have hd : Term.Equal a b = true := by simpa [Term.Equal, hv, hl] using h
          rw [hv, hl, Term.eq_of_Equal a b hd]
        · simp [Term.Equal, hv, hl] at h
      · simp [Term.Equal, hv] at h

/-- Reflexivity of `Term.Equal` (used to derive decidable equality). -/
def Term.Equal_refl : (a : Term) → Term.Equal a a = true
  | .resource u => by simp [Term.Equal]
  | .blank i => by simp [Term.Equal]
  | .literal v l none => by simp [Term.Equal]
  | .literal v l (some d) => by
      have := Term.Equal_refl d
      simp [Term.Equal, this]

instance : DecidableEq Term := fun a b =>
  decidable_of_iff (Term.Equal a b = true)
    ⟨Term.eq_of_Equal a b, fun h => h ▸ Term.Equal_refl a⟩

/-- Embeds `NewResource` of term.go. -/
def NewResource (uri : String) : Term := Term.resource uri

/-- Embeds `NewLiteral` of term.go (no language, nil datatype). -/
def NewLiteral (value : String) : Term := Term.literal value "" none

/-- Embeds `NewLiteralWithLanguage` of term.go. -/
def NewLiteralWithLanguage (value language : String) : Term :=
  Term.literal value language none

/-- Embeds `NewLiteralWithDatatype` of term.go (no language). -/
def NewLiteralWithDatatype (value : String) (datatype : Term) : Term :=
  Term.literal value "" (some datatype)

/-- Embeds `NewBlankNode` of term.go. -/
def NewBlankNode (id : String) : Term := Term.blank id

/-- Embeds Go `strings.Replace(s, old, new, -1)` for a single-character
pattern `c`: every occurrence of `c` is replaced by the character list `r`.
For single-character patterns the Go non-overlapping replacement is exactly
this character-wise expansion. -/
def repl (c : Char) (r : List Char) (s : List Char) : List Char :=
  s.flatMap (fun a => if a = c then r else [a])

/-- Embeds the five sequential `strings.Replace` passes of `Literal.String`
in term.go, in the source order: backslash, double quote, newline, carriage
return, tab. -/
def passAll (l : List Char) : List Char :=
  repl '\t' ['\\', 't']
    (repl '\r' ['\\', 'r']
      (repl '\n' ['\\', 'n']
        (repl '"' ['\\', '"']
          (repl '\\' ['\\', '\\'] l))))

/-- Embeds the escaping prefix of `Literal.String` in term.go applied to the
lexical value before quoting. -/
def goEscape (v : String) : String := String.mk (passAll v.data)

/-- Embeds Go `strings.HasPrefix(lang, "@")`: true exactly when the first
character is `@`. -/
def leadingAt (lang : String) : Bool :=
  match lang.data with
  | c :: _ => c = '@'
  | [] => false

/-- Embeds `atLang` of term.go: an empty tag yields nothing, a tag already
starting with `@` is kept, otherwise `@` is prepended. -/
def atLang (lang : String) : String :=
  if lang.length > 0 then
    (if leadingAt lang then lang else "@" ++ lang)
  else ""

/-- Embeds the `String` methods of term.go: `<uri>` for resources,
the escaped quoted value followed by the language suffix and then the
`^^`-datatype suffix for literals, and `_:id` for blank nodes. -/
def termString : Term → String
  | .resource uri => "<" ++ uri ++ ">"
  | .literal v lang dt =>
    "\"" ++ goEscape v ++ "\"" ++ atLang lang ++
      (match dt with
       | some d => "^^" ++ termString d
       | none => "")
  | .blank id => "_:" ++ id

/-- Character-wise escaping map as the specification describes it: backslash,
double quote, newline, carriage return and tab each become their
two-character escape sequence, all other characters pass through. -/
def escapeCharSpec (c : Char) : List Char :=
  if c = '\\' then ['\\', '\\']
  else if c = '"' then ['\\', '"']
  else if c = '\n' then ['\\', 'n']
  else if c = '\r' then ['\\', 'r']
  else if c = '\t' then ['\\', 't']
  else [c]

/-- Language-tag normalization as the specification describes it: empty means
no suffix, otherwise the tag with a leading `@` added when missing. -/
def specLang (lang : String) : String :=
  if lang = "" then ""
  else if leadingAt lang then lang else "@" ++ lang

/-- Modelled from the spec: the repository's triple.go is not under src/
(only its tests and callers are). Per section 4.2 a Triple is an ordered
(subject, predicate, object) tuple of Terms. Field names follow the Go
struct fields used throughout graph.go. -/
structure Triple where
  Subject : Term
  Predicate : Term
  Object : Term
deriving DecidableEq

/-- Modelled from the spec: `New(subject, predicate, object)` of section 4.2,
a pure constructor. In Go each call allocates a fresh `*Triple` pointer;
freshness is represented at the store level by the allocation counter of
`Graph`. -/
def NewTriple (s p o : Term) : Triple := ⟨s, p, o⟩

/-- Embeds the `Graph` struct of graph.go. The Go store is
`triples map[*Triple]bool`, a map keyed by pointer (allocation) identity;
it is modelled as an association list keyed by an allocation counter
(`nextId`), every insertion of a freshly allocated triple using a fresh key.
The base URI and its term are not needed by the verified claims and are
omitted from the state. -/
structure Graph where
  nextId : Nat
  triples : List (Nat × Triple)
deriving DecidableEq

/-- Embeds `Graph.Len` of graph.go: the number of entries of the store map. -/
def Graph.Len (g : Graph) : Nat := g.triples.length

/-- Iteration sequence of the store (the values of the map, in the model's
fixed order; Go's map iteration order is unspecified). -/
def Graph.tripleValues (g : Graph) : List Triple := g.triples.map Prod.snd

/-- Embeds `Graph.AddTriple` of graph.go: `g.triples[NewTriple(s, p, o)] = true`.
`NewTriple` allocates a fresh pointer, which can never already be a key of
the map, so the insertion always creates a new entry; the model uses the
fresh key `g.nextId`. -/
def Graph.AddTriple (g : Graph) (s p o : Term) : Graph :=
  ⟨g.nextId + 1, (g.nextId, NewTriple s p o) :: g.triples⟩

/-- Embeds `Graph.One` of graph.go: the nested nil-tests on the pattern, in
source order, returning the first triple accepted by the selected test. Note
the source shape: when `s` is non-nil and `p` is nil, only the subject is
tested (the object pattern is never consulted), and when all three are nil
the first iterated triple is returned. -/
def OneL : List Triple → Option Term → Option Term → Option Term → Option Triple
  | [], _, _, _ => none
  | t :: rest, s, p, o =>
    match s with
    | some sv =>
      match p with
      | some pv =>
        match o with
        | some ov =>
          if t.Subject.Equal sv && t.Predicate.Equal pv && t.Object.Equal ov then some t
          else OneL rest s p o
        | none =>
          if t.Subject.Equal sv && t.Predicate.Equal pv then some t
          else OneL rest s p o
      | none =>
        if t.Subject.Equal sv then some t
        else OneL rest s p o
    | none =>
      match p with
      | some pv =>
        match o with
        | some ov =>
          if t.Predicate.Equal pv && t.Object.Equal ov then some t
          else OneL rest s p o
        | none =>
          if t.Predicate.Equal pv then some t
          else OneL rest s p o
      | none =>
        match o with
        | some ov =>
          if t.Object.Equal ov then some t
          else OneL rest s p o
        | none => some t

/-- Embeds `Graph.All` of graph.go: same nested nil-tests as `One`, but
collecting every accepted triple in iteration order; the all-nil pattern has
no accepting branch, so it collects nothing. -/
def AllL : List Triple → Option Term → Option Term → Option Term → List Triple
  | [], _, _, _ => []
  | t :: rest, s, p, o =>
    let res := AllL rest s p o
    match s with
    | some sv =>
      match p with
      | some pv =>
        match o with
        | some ov =>
          if t.Subject.Equal sv && t.Predicate.Equal pv && t.Object.Equal ov then t :: res
          else res
        | none =>
          if t.Subject.Equal sv && t.Predicate.Equal pv then t :: res
          else res
      | none =>
        if t.Subject.Equal sv then t :: res
        else res
    | none =>
      match p with
      | some pv =>
        match o with
        | some ov =>
          if t.Predicate.Equal pv && t.Object.Equal ov then t :: res
          else res
        | none =>
          if t.Predicate.Equal pv then t :: res
          else res
      | none =>
        match o with
        | some ov =>
          if t.Object.Equal ov then t :: res
          else res
        | none => res

/-- Embeds `Graph.One` of graph.go over the graph state. -/
def Graph.One (g : Graph) (s p o : Option Term) : Option Triple :=
  OneL g.tripleValues s p o

/-- Embeds `Graph.All` of graph.go over the graph state. -/
def Graph.All (g : Graph) (s p o : Option Term) : List Triple :=
  AllL g.tripleValues s p o

/-- Pattern test at one position as the specification describes it: a nil
(wildcard) position matches anything, a concrete position requires term
equality of the triple's term with the pattern term. -/
def matchO : Option Term → Term → Bool
  | none, _ => true
  | some pat, x => x.Equal pat

/-- Full pattern test as the specification describes `All`: every non-nil
position must be term-equal, nil positions match anything. -/
def matchesPattern (s p o : Option Term) (t : Triple) : Bool :=
  matchO s t.Subject && matchO p t.Predicate && matchO o t.Object

/-- Datatype comparison as the specification describes literal equality:
both absent, or both present and recursively term-equal. -/
def datatypesMatch : Option Term → Option Term → Prop
  | none, none => True
  | some a, some b => Term.Equal a b = true
  | _, _ => False

/-- Embeds the `mimeParser` dispatch table (the static map of MIME type to
logical parser name): a missing key is Go's empty-string zero value, modelled
as `none`. -/
def mimeParser (mime : String) : Option String :=
  if mime = "application/ld+json" then some "jsonld"
  else if mime = "application/json" then some "internal"
  else if mime = "application/sparql-update" then some "internal"
  else none

/-- Outcome of the dispatch prefix of `Graph.Parse`: which external parser is
invoked, or the error return. -/
inductive ParseAction where
  | useJsonLd
  | useTurtle
  | unsupportedError (message : String)
deriving DecidableEq

/-- Embeds the dispatch logic of `Graph.Parse` in graph.go: look the MIME
type up in `mimeParser`, substitute `"guess"` for an empty result, then
branch on the parser name — `"jsonld"` buffers and converts via the JSON-LD
library, `"turtle"` hands the reader and the graph's base URI to the Turtle
parser, and anything else returns the error `name + " is not supported by
the parser"`. The external parsers themselves are out of scope (spec
section 1); only the dispatch decision is modelled. -/
def parseDispatch (mime : String) : ParseAction :=
  let n0 := match mimeParser mime with
    | some s => s
    | none => ""
  let parserName := if n0.length = 0 then "guess" else n0
  if parserName = "jsonld" then ParseAction.useJsonLd
  else if parserName = "turtle" then ParseAction.useTurtle
  else ParseAction.unsupportedError (parserName ++ " is not supported by the parser")

/-- Embeds `encodeTerm` of graph.go: Sprintf of the bracketed URI for a
resource, and the term's `String` method for literals and blank nodes. -/
def encodeTerm : Term → String
  | .resource uri => "<" ++ uri ++ ">"
  | .literal v l d => termString (.literal v l d)
  | .blank id => termString (.blank id)

/-- Helper of the subject grouping of `serializeTurtle`: append a triple to
the group of its subject key, creating the group at the end on first sight. -/
def addToGroup : List (String × List Triple) → String → Triple → List (String × List Triple)
  | [], k, t => [(k, [t])]
  | (k', gr) :: rest, k, t =>
    if k' = k then (k', gr ++ [t]) :: rest
    else (k', gr) :: addToGroup rest k t

/-- Embeds the `triplesBySubject` grouping of `serializeTurtle` in graph.go:
triples bucketed by the encoded subject text. Go iterates the resulting map
in an unspecified order; the model lists groups in first-appearance order
(one admissible order, exact for single-subject graphs). -/
def groupBySubject (ts : List Triple) : List (String × List Triple) :=
  ts.foldl (fun acc t => addToGroup acc (encodeTerm t.Subject) t) []

/-- Embeds `serializeTurtle` of graph.go: a leading newline, then for every
subject group the subject text on its own line, each (predicate, object)
pair as an indented line terminated with " ;", and a closing "  ." line
followed by a blank line. -/
def serializeTurtle (ts : List Triple) : String :=
  "\n" ++ String.join ((groupBySubject ts).map (fun gr =>
    gr.1 ++ "\n" ++
    String.join (gr.2.map (fun t =>
      "  " ++ encodeTerm t.Predicate ++ " " ++ encodeTerm t.Object ++ " ;\n")) ++
    "  .\n\n"))

/-- Hexadecimal digit used by the JSON `\u00XX` escapes (lowercase, as Go's
encoding/json emits). -/
def hexDig (n : Nat) : Char :=
  ("0123456789abcdef".data).getD n '0'

/-- Embeds the string escaping of Go's `encoding/json` marshaller (with its
default HTML escaping): quote, backslash, the newline/carriage-return/tab
controls, other control characters as `\u00XX`, the HTML-significant
characters as `<`, `>`, `&`, and the line separators U+2028
and U+2029 escaped; everything else passes through. -/
def jsonEscapeChar (c : Char) : String :=
  if c = '"' then "\\\""
  else if c = '\\' then "\\\\"
  else if c = '\n' then "\\n"
  else if c = '\r' then "\\r"
  else if c = '\t' then "\\t"
  else if c.toNat < 32 then
    "\\u00" ++ String.mk [hexDig (c.toNat / 16), hexDig (c.toNat % 16)]
  else if c = '<' then "\\u003c"
  else if c = '>' then "\\u003e"
  else if c = '&' then "\\u0026"
  else if c.toNat = 0x2028 then "\\u2028"
  else if c.toNat = 0x2029 then "\\u2029"
  else String.mk [c]

/-- JSON rendering of a string value, quoted and escaped as Go's
encoding/json does. -/
def jsonQuote (s : String) : String :=
  "\"" ++ String.join (s.data.map jsonEscapeChar) ++ "\""

/-- JSON rendering of an object from an already-key-sorted field list, as
Go's `json.Marshal` renders a `map[string]...` (keys in ascending byte
order). -/
def renderObj (fields : List (String × String)) : String :=
  "\x7b" ++ String.intercalate "," (fields.map (fun kv => jsonQuote kv.1 ++ ":" ++ kv.2)) ++ "\x7d"

/-- Byte-wise string order used by Go's `sort.Strings` when `json.Marshal`
sorts map keys; on UTF-8 encoded strings the byte order coincides with
code-point lexicographic order, computed here on the character lists. -/
def strLtB : List Char → List Char → Bool
  | [], [] => false
  | [], _ :: _ => true
  | _ :: _, [] => false
  | a :: as, b :: bs =>
    if a.toNat < b.toNat then true
    else if a.toNat = b.toNat then strLtB as bs
    else false

/-- Field list of one `one` object of `serializeJSONLd`: the Go map literal
sets `"@id"` to the subject value, then `one[pred] = value` either
overwrites it (when the predicate URI is literally `"@id"`) or adds a second
key; `json.Marshal` then sorts the keys byte-wise. `idv` and `val` are
already-rendered JSON values. -/
def objFields (idv puri val : String) : List (String × String) :=
  if puri = "@id" then [("@id", val)]
  else if strLtB puri.data "@id".data then [(puri, val), ("@id", idv)]
  else [("@id", idv), (puri, val)]

/-- Inner literal object of `serializeJSONLd`: `@value` always, `@type` when
a datatype is present with non-empty text, `@language` when the language tag
is non-empty; rendered as the single-element array Go marshals, keys in
sorted order (`@language` < `@type` < `@value`). -/
def literalValueJson (v lang : String) (dt : Option Term) : String :=
  let fields :=
    (if lang.length > 0 then [("@language", jsonQuote lang)] else []) ++
    (match dt with
     | some d => if (termString d).length > 0 then [("@type", jsonQuote (termString d))] else []
     | none => []) ++
    [("@value", jsonQuote v)]
  "[" ++ renderObj fields ++ "]"

/-- Per-triple object of `serializeJSONLd` in graph.go. The Go code first
runs the type assertion `elt.Subject.(*Resource)` — a runtime panic
(modelled as `none`) when the subject is a blank node or a literal — then
switches on the object: a resource object asserts the predicate to
`*Resource` and stores a one-element `@id` array, a literal object asserts
the predicate and stores the literal value object, and a blank-node object
adds nothing (the object is dropped and the predicate is never asserted). -/
def tripleObj (t : Triple) : Option (List (String × String)) :=
  match t.Subject with
  | .resource suri =>
    let idv := jsonQuote suri
    match t.Object with
    | .resource ouri =>
      match t.Predicate with
      | .resource puri =>
        some (objFields idv puri ("[" ++ "\x7b" ++ jsonQuote "@id" ++ ":" ++ jsonQuote ouri ++ "\x7d" ++ "]"))
      | _ => none
    | .literal v lang dt =>
      match t.Predicate with
      | .resource puri => some (objFields idv puri (literalValueJson v lang dt))
      | _ => none
    | .blank _ => some [("@id", idv)]
  | _ => none

/-- Tests whether a triple's subject is a blank node (the shape on which
`serializeJSONLd`'s subject type assertion panics). -/
def isBlankSubject (t : Triple) : Bool :=
  match t.Subject with
  | .blank _ => true
  | _ => false

/-- Sequential processing of the `serializeJSONLd` loop: the object list of
all triples, or `none` as soon as any triple panics. -/
def objList : List Triple → Option (List (List (String × String)))
  | [] => some []
  | t :: rest =>
    match tripleObj t, objList rest with
    | some o, some os => some (o :: os)
    | _, _ => none

/-- Embeds `serializeJSONLd` of graph.go: the per-triple objects marshalled
as a JSON array (Go marshals the accumulated slice, so the output is always
array-wrapped); `none` models the runtime panic of a failed type
assertion, which occurs before anything is written. -/
def serializeJSONLd (ts : List Triple) : Option String :=
  match objList ts with
  | none => none
  | some os => some ("[" ++ String.intercalate "," (os.map renderObj) ++ "]")

/-- Embeds the `mimeSerializer` dispatch table. -/
def mimeSerializer (mime : String) : Option String :=
  if mime = "application/ld+json" then some "internal"
  else if mime = "text/html" then some "internal"
  else none

/-- Embeds `Graph.Serialize` of graph.go: `application/ld+json` goes to
`serializeJSONLd`, every other MIME type falls through to `serializeTurtle`
(the serializer-name lookup result is computed but unused beyond the
default). `none` models a runtime panic inside the JSON-LD renderer. -/
def Graph.Serialize (g : Graph) (mime : String) : Option String :=
  if mime = "application/ld+json" then serializeJSONLd g.tripleValues
  else some (serializeTurtle g.tripleValues)

/-- Outcome of `NewGraph` in graph.go: a runtime panic from out-of-range
slicing, the non-HTTP scheme error return, or a constructed graph. -/
inductive NewGraphOutcome where
  | panic
  | schemeError
  | ok (uri : List Nat)
deriving DecidableEq

/-- UTF-8 bytes of the Go string literal `"http:"`. -/
def httpB : List Nat := [104, 116, 116, 112, 58]

/-- UTF-8 bytes of the Go string literal `"https:"`. -/
def httpsB : List Nat := [104, 116, 116, 112, 115, 58]

/-- Embeds `NewGraph` of graph.go at the byte level (Go `len` and slicing
count bytes, so the URI is modelled as its byte list). The guard is
`uri[:5] != "http:" && uri[:6] != "https:"`, evaluated left to right with
short-circuiting: `uri[:5]` panics when the string is shorter than 5 bytes;
when it equals `"http:"` the conjunction short-circuits to false and the
graph is built; otherwise `uri[:6]` is evaluated, panicking when the string
is shorter than 6 bytes, and the scheme error is returned unless it equals
`"https:"`. -/
def NewGraph (uri : List Nat) : NewGraphOutcome :=
  if uri.length < 5 then NewGraphOutcome.panic
  else if uri.take 5 = httpB then NewGraphOutcome.ok uri
  else if uri.length < 6 then NewGraphOutcome.panic
  else if uri.take 6 = httpsB then NewGraphOutcome.ok uri
  else NewGraphOutcome.schemeError

/-- Triples of the `All` example shared by the spec and TestGraphAll:
(a,b,c), (a,b,d), (a,f,"h"), (g,b2,e), (g,b2,c). -/
def exTriples : List Triple :=
  [ NewTriple (NewResource "a") (NewResource "b") (NewResource "c"),
    NewTriple (NewResource "a") (NewResource "b") (NewResource "d"),
    NewTriple (NewResource "a") (NewResource "f") (NewLiteral "h"),
    NewTriple (NewResource "g") (NewResource "b2") (NewResource "e"),
    NewTriple (NewResource "g") (NewResource "b2") (NewResource "c") ]

/-- Graph holding `exTriples` (ids 0..4 in insertion order). -/
def exGraph : Graph :=
  ⟨5, (List.range exTriples.length).zip exTriples⟩

/-- The single triple (Resource "a", Resource "b", Resource "c") of the
serialization scenarios. -/
def tABC : Triple := NewTriple (NewResource "a") (NewResource "b") (NewResource "c")

/-- One-triple graph holding `tABC`. -/
def gABC : Graph := ⟨1, [(0, tABC)]⟩

/-- Graph with a blank-node-subject triple (the JSON-LD panic shape). -/
def gBlankSubject : Graph :=
  ⟨1, [(0, NewTriple (NewBlankNode "b") (NewResource "p") (NewResource "o"))]⟩

/-- Two-triple graph with a shared subject, for the per-triple (not merged)
JSON-LD object shape. -/
def gTwo : Graph :=
  ⟨2, [(0, tABC), (1, NewTriple (NewResource "a") (NewResource "d") (NewResource "e"))]⟩

/-- Distribution of the five escaping passes over list concatenation. -/
theorem passAll_append (x y : List Char) : passAll (x ++ y) = passAll x ++ passAll y := by
  simp [passAll, repl]

/-- On a single character the five sequential passes compute exactly the
character-wise escaping map. -/
theorem passAll_single (a : Char) : passAll [a] = escapeCharSpec a := by
  by_cases h1 : a = '\\'
  · subst h1; decide
  · by_cases h2 : a = '"'
    · subst h2; decide
    · by_cases h3 : a = '\n'
      · subst h3; decide
      · by_cases h4 : a = '\r'
        · subst h4; decide
        · by_cases h5 : a = '\t'
          · subst h5; decide
          · simp [passAll, repl, escapeCharSpec, h1, h2, h3, h4, h5]

/-- The sequential replacement order of `Literal.String` computes the
character-wise escaping map on every input. -/
theorem passAll_eq_flatMap (l : List Char) : passAll l = l.flatMap escapeCharSpec := by
  induction l with
  | nil => rfl
  | cons a l ih =>
    have h : a :: l = [a] ++ l := rfl
    rw [h, passAll_append, passAll_single, ih]
    simp

/-- The source `atLang` normalization agrees with the specification's
description of the language suffix. -/
theorem atLang_eq_specLang (lang : String) : atLang lang = specLang lang := by
  rcases lang with ⟨data⟩
  cases data with
  | nil => rfl
  | cons c cs =>
    have hne : (⟨c :: cs⟩ : String) ≠ "" := by
      intro h
      simpa using congrArg String.data h
    simp [atLang, specLang, String.length, hne]

/-- Shape lemma: fully concrete pattern. -/
theorem allL_sss (ts : List Triple) (sv pv ov : Term) :
    AllL ts (some sv) (some pv) (some ov) =
      ts.filter (fun t => t.Subject.Equal sv && t.Predicate.Equal pv && t.Object.Equal ov) := by
  induction ts with
  | nil => rfl
  | cons t rest ih => simp [AllL, List.filter_cons, ih]

/-- Shape lemma: concrete subject and predicate. -/
theorem allL_ssn (ts : List Triple) (sv pv : Term) :
    AllL ts (some sv) (some pv) none =
      ts.filter (fun t => t.Subject.Equal sv && t.Predicate.Equal pv) := by
  induction ts with
  | nil => rfl
  | cons t rest ih => simp [AllL, List.filter_cons, ih]

/-- Shape lemma: concrete subject only. -/
theorem allL_snn (ts : List Triple) (sv : Term) :
    AllL ts (some sv) none none = ts.filter (fun t => t.Subject.Equal sv) := by
  induction ts with
  | nil => rfl
  | cons t rest ih => simp [AllL, List.filter_cons, ih]

/-- Shape lemma of the source quirk: concrete subject and object with nil
predicate tests the subject only. -/
theorem allL_sno (ts : List Triple) (sv ov : Term) :
    AllL ts (some sv) none (some ov) = ts.filter (fun t => t.Subject.Equal sv) := by
  induction ts with
  | nil => rfl
  | cons t rest ih => simp [AllL, List.filter_cons, ih]

/-- Shape lemma: concrete predicate and object. -/
theorem allL_nss (ts : List Triple) (pv ov : Term) :
    AllL ts none (some pv) (some ov) =
      ts.filter (fun t => t.Predicate.Equal pv && t.Object.Equal ov) := by
  induction ts with
  | nil => rfl
  | cons t rest ih => simp [AllL, List.filter_cons, ih]

/-- Shape lemma: concrete predicate only. -/
theorem allL_nsn (ts : List Triple) (pv : Term) :
    AllL ts none (some pv) none = ts.filter (fun t => t.Predicate.Equal pv) := by
  induction ts with
  | nil => rfl
  | cons t rest ih => simp [AllL, List.filter_cons, ih]

/-- Shape lemma: concrete object only. -/
theorem allL_nns (ts : List Triple) (ov : Term) :
    AllL ts none none (some ov) = ts.filter (fun t => t.Object.Equal ov) := by
  induction ts with
  | nil => rfl
  | cons t rest ih => simp [AllL, List.filter_cons, ih]

/-- Shape lemma: the all-wildcard pattern collects nothing in `All`. -/
theorem allL_nnn (ts : List Triple) : AllL ts none none none = [] := by
  induction ts with
  | nil => rfl
  | cons t rest ih => simp [AllL, ih]

/-- A blank-node subject makes the per-triple JSON-LD conversion panic. -/
theorem tripleObj_blank (t : Triple) (h : isBlankSubject t = true) : tripleObj t = none := by
  rcases t with ⟨s, p, o⟩
  cases s with
  | resource u => simp [isBlankSubject] at h
  | literal v l d => simp [isBlankSubject] at h
  | blank i => rfl

/-- Any panicking triple in the iteration makes the whole JSON-LD object
list panic. -/
theorem objList_any_blank (ts : List Triple) (h : ts.any isBlankSubject = true) :
    objList ts = none := by
  induction ts with
  | nil => simp at h
  | cons t rest ih =>
    rw [List.any_cons] at h
    rcases Bool.or_eq_true_iff.mp h with h1 | h2
    · simp [objList, tripleObj_blank t h1]
    · cases ho : tripleObj t <;> simp [objList, ho, ih h2]

/-- C1 counterexample: the dispatch table maps the MIME type `text/turtle`
to no parser name, so `Parse` substitutes `"guess"` and returns the
unsupported-format error instead of invoking the Turtle-family parser. -/
theorem parse_turtle_mime_unsupported_cex :
    mimeParser "text/turtle" = none
    ∧ parseDispatch "text/turtle" =
        ParseAction.unsupportedError "guess is not supported by the parser"
    ∧ parseDispatch "text/turtle" ≠ ParseAction.useTurtle := by decide

/-- C1 (amended): for every MIME type absent from the dispatch table —
including `text/turtle` and all unrecognized types — `Parse` returns the
error `"guess is not supported by the parser"` rather than handing the input
to the external Turtle-family parser (no table entry maps to `"turtle"`). -/
theorem parse_unmapped_mime_errors (mime : String) (h : mimeParser mime = none) :
    parseDispatch mime =
      ParseAction.unsupportedError "guess is not supported by the parser" := by
  unfold parseDispatch
  rw [h]
  decide

/-- C1 witness: the amended theorem at the concrete MIME type `text/n3`. -/
theorem parse_unmapped_mime_errors_witness :
    mimeParser "text/n3" = none
    ∧ parseDispatch "text/n3" =
        ParseAction.unsupportedError "guess is not supported by the parser" :=
  ⟨by decide, parse_unmapped_mime_errors "text/n3" (by decide)⟩

/-- C2 counterexample: serializing a graph whose only triple has a
BlankNode subject to `application/ld+json` does not succeed with the raw id
as `@id` — the `Subject.(*Resource)` type assertion panics (modelled as
`none`). -/
theorem jsonld_blank_subject_panics_cex :
    gBlankSubject.Serialize "application/ld+json" = none := by decide

/-- C2 (amended): for every graph containing a triple whose subject is a
BlankNode, Serialize with MIME type `application/ld+json` fails with a
runtime panic of the subject type assertion (modelled as `none`); the blank
node's identifier is never emitted. -/
theorem jsonld_blank_subject_fails (g : Graph)
    (h : g.tripleValues.any isBlankSubject = true) :
    g.Serialize "application/ld+json" = none := by
  have hobj : objList g.tripleValues = none := objList_any_blank _ h
  simp [Graph.Serialize, serializeJSONLd, hobj]

/-- C2 witness: the amended theorem at a concrete one-triple graph with a
blank-node subject. -/
theorem jsonld_blank_subject_fails_witness :
    (⟨1, [(0, NewTriple (NewBlankNode "n9") (NewResource "q") (NewLiteral "v"))]⟩ : Graph).tripleValues.any isBlankSubject = true
    ∧ (⟨1, [(0, NewTriple (NewBlankNode "n9") (NewResource "q") (NewLiteral "v"))]⟩ : Graph).Serialize "application/ld+json" = none :=
  ⟨by decide, jsonld_blank_subject_fails _ (by decide)⟩

/-- C3: evaluating the Turtle-style serializer of graph.go on the graph
holding exactly (Resource "a", Resource "b", Resource "c") yields
"\n<a>\n  <b> <c> ;\n  .\n\n" — every (predicate, object) pair line is
semicolon-terminated and the period sits on its own "  ." line — and not
the period-terminated final pair "<a>\n  <b> <c> ." that the claim and the
repository's own TestSerializeTurtle expect. -/
theorem turtle_semicolon_every_pair :
    gABC.Serialize "text/turtle" = some "\n<a>\n  <b> <c> ;\n  .\n\n"
    ∧ gABC.Serialize "text/turtle" ≠ some "<a>\n  <b> <c> ." := by decide

/-- C4 counterexample: serializing the one-triple graph to the JSON-LD-style
form does not yield the bare object text the claim states — the renderer
marshals the accumulated slice, so the text is array-wrapped. -/
theorem jsonld_not_bare_object_cex :
    gABC.Serialize "application/ld+json" ≠
      some "\x7b\"@id\":\"a\",\"b\":[\x7b\"@id\":\"c\"\x7d]\x7d" := by decide

/-- C4 (amended): serializing the graph containing exactly
(Resource "a", Resource "b", Resource "c") to the JSON-LD-style form yields
the array-wrapped text [\x7b"@id":"a","b":[\x7b"@id":"c"\x7d]\x7d], and a
two-triple graph with a shared subject yields one JSON object per triple,
each carrying only that triple's single predicate/object entry. -/
theorem jsonld_array_per_triple :
    gABC.Serialize "application/ld+json" =
      some "[\x7b\"@id\":\"a\",\"b\":[\x7b\"@id\":\"c\"\x7d]\x7d]"
    ∧ gTwo.Serialize "application/ld+json" =
      some "[\x7b\"@id\":\"a\",\"b\":[\x7b\"@id\":\"c\"\x7d]\x7d,\x7b\"@id\":\"a\",\"d\":[\x7b\"@id\":\"e\"\x7d]\x7d]" := by decide

/-- C5: with all three pattern positions nil, `One` returns some triple of
the graph whenever the graph is non-empty and a not-found `none` when it is
empty, while `All` returns the empty sequence on every graph. -/
theorem one_any_all_empty :
    (∀ g : Graph, g.Len ≠ 0 → ∃ t, g.One none none none = some t ∧ t ∈ g.tripleValues)
    ∧ (∀ g : Graph, g.Len = 0 → g.One none none none = none)
    ∧ (∀ g : Graph, g.All none none none = []) := by
  refine ⟨?_, ?_, ?_⟩
  · intro g h
    rcases hs : g.triples with _ | ⟨a, rest⟩
    · exact absurd (by simp [Graph.Len, hs]) h
    · refine ⟨a.2, ?_, ?_⟩
      · simp [Graph.One, Graph.tripleValues, hs, OneL]
      · simp [Graph.tripleValues, hs]
  · intro g h
    have hnil : g.triples = [] := List.length_eq_zero.mp h
    simp [Graph.One, Graph.tripleValues, hnil, OneL]
  · intro g
    exact allL_nnn _

/-- C5 witness: the non-empty branch at the one-triple graph and the empty
branch at the empty graph. -/
theorem one_any_all_empty_witness :
    (gABC.Len ≠ 0 ∧ ∃ t, gABC.One none none none = some t ∧ t ∈ gABC.tripleValues)
    ∧ ((⟨0, []⟩ : Graph).Len = 0 ∧ (⟨0, []⟩ : Graph).One none none none = none) :=
  ⟨⟨by decide, one_any_all_empty.1 gABC (by decide)⟩,
   ⟨by decide, one_any_all_empty.2.1 ⟨0, []⟩ (by decide)⟩⟩

/-- C6 counterexample: with pattern (subject "a", nil, object "z") on the
one-triple graph, `All` returns the triple although its object is not
Term-equal to the non-nil object position (the source ignores the object
pattern whenever the subject is non-nil and the predicate is nil), so `All`
does not return exactly the triples matching every non-nil position. -/
theorem all_object_pattern_ignored_cex :
    gABC.All (some (NewResource "a")) none (some (NewResource "z")) = [tABC]
    ∧ tABC.Object.Equal (NewResource "z") = false
    ∧ gABC.tripleValues.filter
        (matchesPattern (some (NewResource "a")) none (some (NewResource "z"))) = [] := by decide

/-- C6 (amended): for every pattern with at least one non-nil position other
than the combination (subject non-nil, predicate nil, object non-nil), `All`
returns exactly the triples Term-equal at each non-nil position (an empty
sequence, not an error, when nothing matches); for that one combination the
source tests the subject only, ignoring the object pattern; and on the
five-triple example graph All(a,nil,nil) has 3 results, All(nil,b,nil) has
2, and All(nil,nil,c) has 2. -/
theorem all_matches_exactly :
    (∀ (g : Graph) (s p o : Option Term),
        ¬(s = none ∧ p = none ∧ o = none) →
        ¬(s ≠ none ∧ p = none ∧ o ≠ none) →
        g.All s p o = g.tripleValues.filter (matchesPattern s p o))
    ∧ (∀ (g : Graph) (sv ov : Term),
        g.All (some sv) none (some ov) =
          g.tripleValues.filter (fun t => t.Subject.Equal sv))
    ∧ (exGraph.All (some (NewResource "a")) none none).length = 3
    ∧ (exGraph.All none (some (NewResource "b")) none).length = 2
    ∧ (exGraph.All none none (some (NewResource "c"))).length = 2 := by
  refine ⟨?_, ?_, by decide, by decide, by decide⟩
  · intro g s p o h1 h2
    rcases s with _ | sv <;> rcases p with _ | pv <;> rcases o with _ | ov
    · exact absurd ⟨rfl, rfl, rfl⟩ h1
    · rw [Graph.All, allL_nns]
      congr 1
      try funext t
      try simp [matchesPattern, matchO]
    · rw [Graph.All, allL_nsn]
      congr 1
      try funext t
      try simp [matchesPattern, matchO]
    · rw [Graph.All, allL_nss]
      congr 1
      try funext t
      try simp [matchesPattern, matchO]
    · rw [Graph.All, allL_snn]
      congr 1
      try funext t
      try simp [matchesPattern, matchO]
    · exact absurd ⟨Option.some_ne_none sv, rfl, Option.some_ne_none ov⟩ h2
    · rw [Graph.All, allL_ssn]
      congr 1
      try funext t
      try simp [matchesPattern, matchO]
    · rw [Graph.All, allL_sss]
      congr 1
      try funext t
      try simp [matchesPattern, matchO]
  · intro g sv ov
    rw [Graph.All, allL_sno]

/-- C6 witness: the exact-match branch at the pattern (subject "a",
predicate "b", nil) on the one-triple graph. -/
theorem all_matches_exactly_witness :
    gABC.All (some (NewResource "a")) (some (NewResource "b")) none =
      gABC.tripleValues.filter
        (matchesPattern (some (NewResource "a")) (some (NewResource "b")) none) :=
  all_matches_exactly.1 gABC _ _ _ (by decide) (by decide)

/-- C7: the store keys by allocation identity, so calling `AddTriple` twice
with the same term values creates two distinct entries — `Len` grows by two
and the store gains two entries with distinct keys holding value-equal
triples. -/
theorem addtriple_identity_keyed (g : Graph) (s p o : Term) :
    ((g.AddTriple s p o).AddTriple s p o).Len = g.Len + 2
    ∧ ((g.AddTriple s p o).AddTriple s p o).triples =
        (g.nextId + 1, NewTriple s p o) :: (g.nextId, NewTriple s p o) :: g.triples
    ∧ g.nextId + 1 ≠ g.nextId := by
  refine ⟨?_, rfl, by omega⟩
  simp [Graph.AddTriple, Graph.Len]

/-- C8: two literals are `Equal` exactly when their lexical values, language
tags and datatypes all match, with datatype comparison the recursive term
equality and a present datatype never equal to an absent one; in particular
NewLiteral "x" is not Equal to NewLiteralWithDatatype "x" d for any d. -/
theorem literal_equal_iff :
    (∀ (v1 l1 : String) (d1 : Option Term) (v2 l2 : String) (d2 : Option Term),
        Term.Equal (.literal v1 l1 d1) (.literal v2 l2 d2) = true ↔
          v1 = v2 ∧ l1 = l2 ∧ datatypesMatch d1 d2)
    ∧ (∀ d : Term, Term.Equal (NewLiteral "x") (NewLiteralWithDatatype "x" d) = false) := by
  constructor
  · intro v1 l1 d1 v2 l2 d2
    by_cases hv : v1 = v2 <;> by_cases hl : l1 = l2 <;> cases d1 <;> cases d2 <;>
      simp [Term.Equal, datatypesMatch, hv, hl]
  · intro d
    simp [NewLiteral, NewLiteralWithDatatype, Term.Equal]

/-- C9: the literal `String` method returns the lexical value with each of
backslash, double quote, newline, carriage return and tab replaced by its
two-character escape (the sequential passes computing exactly the
character-wise escaping map), wrapped in double quotes, followed by the
language tag normalized to a leading `@`, and then by `^^` and the
datatype's canonical text when a datatype is present — both suffixes,
language first, when both are set. -/
theorem literal_string_escapes_and_suffixes (v lang : String) (dt : Option Term) :
    termString (Term.literal v lang dt) =
      "\"" ++ String.mk (v.data.flatMap escapeCharSpec) ++ "\"" ++ specLang lang ++
        (match dt with
         | some d => "^^" ++ termString d
         | none => "") := by
  cases dt <;> simp only [termString, goEscape, passAll_eq_flatMap, atLang_eq_specLang]

/-- C10: `NewGraph` is panic-free exactly on byte strings of length at least
6 and on the exact five-byte string "http:"; every shorter URI, and every
five-byte URI other than "http:", hits an out-of-range slice and panics
instead of returning the scheme-validation error. -/
theorem newgraph_panic_iff (uri : List Nat) :
    NewGraph uri ≠ NewGraphOutcome.panic ↔ 6 ≤ uri.length ∨ uri = httpB := by
  unfold NewGraph
  by_cases h5 : uri.length < 5
  · have hne : uri ≠ httpB := by
      intro he
      rw [he] at h5
      exact absurd h5 (by decide)
    simp only [if_pos h5]
    constructor
    · intro h
      exact absurd rfl h
    · rintro (h6 | he)
      · exact absurd h6 (by omega)
      · exact absurd he hne
  · simp only [if_neg h5]
    by_cases htake : uri.take 5 = httpB
    · simp only [if_pos htake]
      constructor
      · intro _
        by_cases h6 : 6 ≤ uri.length
        · exact Or.inl h6
        · right
          have hlen : uri.length ≤ 5 := by omega
          rw [List.take_of_length_le hlen] at htake
          exact htake
      · intro _
        simp
    · simp only [if_neg htake]
      by_cases h6 : uri.length < 6
      · simp only [if_pos h6]
        constructor
        · intro h
          exact absurd rfl h
        · rintro (hh | he)
          · exact absurd hh (by omega)
          · rw [he] at htake
            exact absurd (by decide) htake
      · simp only [if_neg h6]
        constructor
        · intro _
          exact Or.inl (by omega)
        · intro _
          split <;> simp

end Rdf2Go
